import Mathlib

/-!
# atlas-app-toolkit: gateway interceptor, endpoint registration, field-path resolver

A shallow embedding of

* `gateway.ClientUnaryInterceptor` and `gateway.registerEndpoints`
  (`src/gateway/gateway.go`), and
* the field-path resolver `gorm.HandleFieldPath` with its classifier `gorm.isModel`,
  of which only the test tables (`src/gorm/utilities_test.go`) are available, so that
  they are modelled from the specification.

The interceptor is stateful Go code: it mutates the request through
`SetCollectionOps` and calls its collaborators in a fixed order.  It is embedded as
explicit state passing over a pair (request, trace), where the trace records every
call the interceptor makes to a collaborator, in call order, with its outcome.
-/

namespace Gateway

/-! ## Data model of the interceptor -/

/-- The status codes of `google.golang.org/grpc/codes`. -/
inductive Code where
  | OK | Canceled | Unknown | InvalidArgument | DeadlineExceeded | NotFound
  | AlreadyExists | PermissionDenied | ResourceExhausted | FailedPrecondition
  | Aborted | OutOfRange | Unimplemented | Internal | Unavailable | DataLoss
  | Unauthenticated
  deriving DecidableEq

/-- The five collection-operator kinds handled by the interceptor, in the order in
which `ClientUnaryInterceptor` handles them. -/
inductive Kind where
  | sorting | fieldSelection | filtering | searching | pagination
  deriving DecidableEq

/-- Position of a kind in the order of the five blocks of `ClientUnaryInterceptor`. -/
def Kind.idx : Kind → Nat
  | .sorting => 0
  | .fieldSelection => 1
  | .filtering => 2
  | .searching => 3
  | .pagination => 4

/-- The Go types the interceptor is generic in or that are declared outside
`gateway.go`: the context, the request and reply values (`interface{}`), the client
connection, call options, `*url.URL`, Go's `error`, and the five operation types of
package `query`. -/
structure Sig where
  Ctx : Type
  Req : Type
  Reply : Type
  Conn : Type
  CallOption : Type
  URL : Type
  Err : Type
  Sorting : Type
  FieldSelection : Type
  Filtering : Type
  Searching : Type
  Pagination : Type

/-- The value handed to `SetCollectionOps` as its `op interface{}` argument: one of the
five operation types of package `query`. -/
inductive Op (T : Sig) where
  | sorting (s : T.Sorting)
  | fieldSelection (fs : T.FieldSelection)
  | filtering (f : T.Filtering)
  | searching (s : T.Searching)
  | pagination (p : T.Pagination)

/-- The kind of an operation value. -/
def Op.kind {T : Sig} : Op T → Kind
  | .sorting _ => .sorting
  | .fieldSelection _ => .fieldSelection
  | .filtering _ => .filtering
  | .searching _ => .searching
  | .pagination _ => .pagination

/-- Go's `url.Values`, a `map[string][]string`; a missing key maps to the empty slice. -/
abbrev Values := String → List String

/-- `url.Values.Get`: the first value associated with the key, or `""` when the key has
no values. -/
def Values.Get (v : Values) (key : String) : String :=
  match v key with
  | [] => ""
  | x :: _ => x

/-- The arguments of one call of the `grpc.UnaryInvoker`. -/
structure Call (T : Sig) where
  ctx : T.Ctx
  method : String
  req : T.Req
  reply : T.Reply
  cc : T.Conn
  opts : List T.CallOption

/-- One call made by the interceptor to a collaborator, with what it returned:
`url.Parse(raw)`, a parser of package `query` (with its string arguments),
`SetCollectionOps(req, op)`, or the invoker. `err = none` is Go's `nil` error. -/
inductive Event (T : Sig) where
  | urlParse (raw : String) (err : Option T.Err)
  | parse (k : Kind) (args : List String) (err : Option T.Err)
  | set (op : Op T) (err : Option T.Err)
  | invoke (c : Call T)

/-- The kind an event belongs to, if it belongs to one of the five operator blocks. -/
def Event.kind? {T : Sig} : Event T → Option Kind
  | .parse k _ _ => some k
  | .set op _ => some op.kind
  | _ => none

/-- The event is a call of the invoker. -/
def Event.isInvoke {T : Sig} : Event T → Bool
  | .invoke _ => true
  | _ => false

/-- The event is a call of `SetCollectionOps`. -/
def Event.isSet {T : Sig} : Event T → Bool
  | .set _ _ => true
  | _ => false

/-- The event is a call (of `url.Parse`, a parser or `SetCollectionOps`) that returned
a non-nil error. -/
def Event.failed {T : Sig} : Event T → Bool
  | .urlParse _ (some _) => true
  | .parse _ _ (some _) => true
  | .set _ (some _) => true
  | _ => false

/-- The collaborators of `ClientUnaryInterceptor` that are declared outside
`gateway.go`, taken as parameters: the header lookup and the query-key constants of
package `gateway`, `url.Parse` and `(*url.URL).Query`, the `Error()` method of Go
errors, `status.Error`, the parsers of package `query`, `SetCollectionOps` (which
mutates the request it is given, hence returns the request afterwards next to its
error), and the invoker. -/
structure Env (T : Sig) where
  query_url : String
  sortQueryKey : String
  fieldsQueryKey : String
  filterQueryKey : String
  searchQueryKey : String
  limitQueryKey : String
  offsetQueryKey : String
  pageTokenQueryKey : String
  Header : T.Ctx → String → Option String
  urlParse : String → Except T.Err T.URL
  Query : T.URL → Values
  Error : T.Err → String
  statusError : Code → String → T.Err
  ParseSorting : String → Except T.Err T.Sorting
  ParseFieldSelection : String → T.FieldSelection
  ParseFiltering : String → Except T.Err T.Filtering
  ParseSearching : String → T.Searching
  ParsePagination : String → String → String → Except T.Err T.Pagination
  SetCollectionOps : T.Req → Op T → T.Req × Option T.Err
  invoker : T.Ctx → String → T.Req → T.Reply → T.Conn → List T.CallOption → Option T.Err

/-- The state threaded through the interceptor: the request as mutated so far and the
calls made so far. -/
structure St (T : Sig) where
  req : T.Req
  trace : List (Event T)

/-- Record a call. -/
def St.log {T : Sig} (st : St T) (ev : Event T) : St T :=
  ⟨st.req, st.trace ++ [ev]⟩

/-- The outcome of a block of the interceptor: `.error (err, st)` is a Go `return err`
in state `st`; `.ok st` falls through to the next statement. -/
abbrev Flow (T : Sig) := Except (T.Err × St T) (St T)

/-- The statement `err = SetCollectionOps(req, op); if err != nil { return err }`. -/
def attach {T : Sig} (env : Env T) (op : Op T) (st : St T) : Flow T :=
  let r := env.SetCollectionOps st.req op
  let st1 : St T := ⟨r.1, st.trace ++ [Event.set op r.2]⟩
  match r.2 with
  | some err => .error (err, st1)
  | none => .ok st1

/-- Lines 44-54 of `gateway.go`: the `_order_by` block. -/
def sortBlock {T : Sig} (env : Env T) (vals : Values) (st : St T) : Flow T :=
  let v := vals.Get env.sortQueryKey
  if v ≠ "" then
    match env.ParseSorting v with
    | .error err =>
      .error (env.statusError .InvalidArgument (env.Error err),
        st.log (.parse .sorting [v] (some err)))
    | .ok s => attach env (.sorting s) (st.log (.parse .sorting [v] none))
  else .ok st

/-- Lines 55-62 of `gateway.go`: the `_fields` block. -/
def fieldsBlock {T : Sig} (env : Env T) (vals : Values) (st : St T) : Flow T :=
  let v := vals.Get env.fieldsQueryKey
  if v ≠ "" then
    let fs := env.ParseFieldSelection v
    attach env (.fieldSelection fs) (st.log (.parse .fieldSelection [v] none))
  else .ok st

/-- Lines 64-75 of `gateway.go`: the `_filter` block. -/
def filterBlock {T : Sig} (env : Env T) (vals : Values) (st : St T) : Flow T :=
  let v := vals.Get env.filterQueryKey
  if v ≠ "" then
    match env.ParseFiltering v with
    | .error err =>
      .error (env.statusError .InvalidArgument (env.Error err),
        st.log (.parse .filtering [v] (some err)))
    | .ok f => attach env (.filtering f) (st.log (.parse .filtering [v] none))
  else .ok st

/-- Lines 77-84 of `gateway.go`: the `_fts` block. -/
def searchBlock {T : Sig} (env : Env T) (vals : Values) (st : St T) : Flow T :=
  let v := vals.Get env.searchQueryKey
  if v ≠ "" then
    let s := env.ParseSearching v
    attach env (.searching s) (st.log (.parse .searching [v] none))
  else .ok st

/-- Lines 86-99 of `gateway.go`: the `_limit`, `_offset`, `_page_token` block. It has no
guard on the three values. -/
def paginationBlock {T : Sig} (env : Env T) (vals : Values) (st : St T) : Flow T :=
  let l := vals.Get env.limitQueryKey
  let o := vals.Get env.offsetQueryKey
  let pt := vals.Get env.pageTokenQueryKey
  match env.ParsePagination l o pt with
  | .error err =>
    .error (env.statusError .InvalidArgument (env.Error err),
      st.log (.parse .pagination [l, o, pt] (some err)))
  | .ok p => attach env (.pagination p) (st.log (.parse .pagination [l, o, pt] none))

/-- Lines 38-100 of `gateway.go`: the body of `if ok { ... }`, run on the header
value `raw`. -/
def collectionOps {T : Sig} (env : Env T) (raw : String) (st : St T) : Flow T :=
  match env.urlParse raw with
  | .error err =>
    .error (env.statusError .InvalidArgument (env.Error err),
      st.log (.urlParse raw (some err)))
  | .ok request =>
    let vals := env.Query request
    (sortBlock env vals (st.log (.urlParse raw none))) >>= fun st1 =>
    (fieldsBlock env vals st1) >>= fun st2 =>
    (filterBlock env vals st2) >>= fun st3 =>
    (searchBlock env vals st3) >>= fun st4 =>
    paginationBlock env vals st4

/-- What a call of the interceptor leaves behind: the error it returns (`none` is
`nil`), the request as the interceptor's own `SetCollectionOps` calls left it, and the
calls it made. -/
structure Result (T : Sig) where
  err : Option T.Err
  req : T.Req
  trace : List (Event T)

/-- `ClientUnaryInterceptor` (lines 36-102 of `gateway.go`). -/
def ClientUnaryInterceptor {T : Sig} (env : Env T) (parentCtx : T.Ctx) (method : String)
    (req : T.Req) (reply : T.Reply) (cc : T.Conn) (opts : List T.CallOption) : Result T :=
  let st0 : St T := ⟨req, []⟩
  let flow : Flow T :=
    match env.Header parentCtx env.query_url with
    | some raw => collectionOps env raw st0
    | none => .ok st0
  match flow with
  | .error (err, st) => ⟨some err, st.req, st.trace⟩
  | .ok st =>
    ⟨env.invoker parentCtx method st.req reply cc opts, st.req,
      st.trace ++ [Event.invoke ⟨parentCtx, method, st.req, reply, cc, opts⟩]⟩

/-! ## Reading a trace -/

/-- The effect of one recorded call on the request: only `SetCollectionOps` mutates it. -/
def applyEvent {T : Sig} (env : Env T) (req : T.Req) : Event T → T.Req
  | .set op _ => (env.SetCollectionOps req op).1
  | _ => req

/-- The request obtained from `req` by redoing, in call order, the `SetCollectionOps`
calls recorded in a trace. -/
def replay {T : Sig} (env : Env T) (req : T.Req) (tr : List (Event T)) : T.Req :=
  tr.foldl (applyEvent env) req

/-- The error the interceptor returns on a failed call: the error of `SetCollectionOps`
as it is, a parse error wrapped by `status.Error(codes.InvalidArgument, err.Error())`. -/
def errorOf {T : Sig} (env : Env T) : Event T → Option T.Err
  | .urlParse _ (some err) => some (env.statusError .InvalidArgument (env.Error err))
  | .parse _ _ (some err) => some (env.statusError .InvalidArgument (env.Error err))
  | .set _ (some err) => some err
  | _ => none

/-- Whether the block of a kind is entered: the four guarded blocks test their value
against `""`, the pagination block is unguarded. -/
def guardOf {T : Sig} (env : Env T) (vals : Values) : Kind → Bool
  | .sorting => decide (vals.Get env.sortQueryKey ≠ "")
  | .fieldSelection => decide (vals.Get env.fieldsQueryKey ≠ "")
  | .filtering => decide (vals.Get env.filterQueryKey ≠ "")
  | .searching => decide (vals.Get env.searchQueryKey ≠ "")
  | .pagination => true

/-- The query keys read by the block of a kind. -/
def keysOf {T : Sig} (env : Env T) : Kind → List String
  | .sorting => [env.sortQueryKey]
  | .fieldSelection => [env.fieldsQueryKey]
  | .filtering => [env.filterQueryKey]
  | .searching => [env.searchQueryKey]
  | .pagination => [env.limitQueryKey, env.offsetQueryKey, env.pageTokenQueryKey]

/-- The values of the keys of a kind, as `vals.Get` returns them. -/
def keyArgs {T : Sig} (env : Env T) (vals : Values) (k : Kind) : List String :=
  (keysOf env k).map vals.Get

/-- The error part of a Go `(value, error)` result. -/
def errPart {ε α : Type} : Except ε α → Option ε
  | .error e => some e
  | .ok _ => none

/-- The error the parser of a kind returns on the given arguments (`some none` is a
`nil` error; `ParseFieldSelection` and `ParseSearching` return no error at all);
`none` when the number of arguments is not the parser's. -/
def parserErr {T : Sig} (env : Env T) : Kind → List String → Option (Option T.Err)
  | .sorting, [v] => some (errPart (env.ParseSorting v))
  | .fieldSelection, [_] => some none
  | .filtering, [v] => some (errPart (env.ParseFiltering v))
  | .searching, [_] => some none
  | .pagination, [l, o, pt] => some (errPart (env.ParsePagination l o pt))
  | _, _ => none

/-- The value part of a Go `(value, error)` result whose error is `nil`. -/
def okPart {ε α : Type} : Except ε α → Option α
  | .error _ => none
  | .ok a => some a

/-- The operation the parser of a kind returns on the values of its keys, when it
returns no error. -/
def parsedOp {T : Sig} (env : Env T) (vals : Values) : Kind → Option (Op T)
  | .sorting => okPart ((env.ParseSorting (vals.Get env.sortQueryKey)).map Op.sorting)
  | .fieldSelection =>
    some (Op.fieldSelection (env.ParseFieldSelection (vals.Get env.fieldsQueryKey)))
  | .filtering => okPart ((env.ParseFiltering (vals.Get env.filterQueryKey)).map Op.filtering)
  | .searching => some (Op.searching (env.ParseSearching (vals.Get env.searchQueryKey)))
  | .pagination =>
    okPart ((env.ParsePagination (vals.Get env.limitQueryKey) (vals.Get env.offsetQueryKey)
      (vals.Get env.pageTokenQueryKey)).map Op.pagination)

/-- The error with which the parser of a kind fails on the values of its keys, for a
block that is entered: `some e` when the guard of the kind is open (a non-empty value
for the four guarded kinds) and the parser returns the error `e` there. -/
def parseFailure {T : Sig} (env : Env T) (vals : Values) (k : Kind) : Option T.Err :=
  if guardOf env vals k = true then
    match parserErr env k (keyArgs env vals k) with
    | some (some e) => some e
    | _ => none
  else none

/-- A recorded parser call is the call of that parser on the values of its keys,
entered through its guard, with the error the parser returns there; a recorded
`SetCollectionOps` call is given the operation its parser returned and records the
error `SetCollectionOps` returns on some request. -/
def Sound {T : Sig} (env : Env T) (vals : Values) : Event T → Prop
  | .parse k args err =>
    args = keyArgs env vals k ∧ guardOf env vals k = true ∧ parserErr env k args = some err
  | .set op err =>
    parsedOp env vals op.kind = some op ∧ ∃ r, (env.SetCollectionOps r op).2 = err
  | _ => True

/-- No recorded call failed and the invoker was not called. -/
def Clean {T : Sig} (tr : List (Event T)) : Prop :=
  ∀ ev ∈ tr, ev.failed = false ∧ ev.isInvoke = false

/-- The operator of kind `k` was parsed and attached, both without error. -/
def Attached {T : Sig} (tr : List (Event T)) (k : Kind) : Prop :=
  ∃ args op, op.kind = k ∧ Event.parse k args none ∈ tr ∧ Event.set op none ∈ tr

/-- The parser of kind `k` was run on the values of its keys without error and the
operation it returned was attached without error. -/
def AttachedParsed {T : Sig} (env : Env T) (vals : Values) (tr : List (Event T))
    (k : Kind) : Prop :=
  ∃ op, parsedOp env vals k = some op ∧ Event.parse k (keyArgs env vals k) none ∈ tr ∧
    Event.set op none ∈ tr

/-- No call belonging to the block of kind `k` was made. -/
def NoKind {T : Sig} (k : Kind) (tr : List (Event T)) : Prop :=
  ∀ ev ∈ tr, ev.kind? ≠ some k

/-- A flow satisfies `Q` when it falls through and `F` when it returns an error. -/
def Flow.Sat {T : Sig} (x : Flow T) (Q : St T → Prop) (F : T.Err → St T → Prop) : Prop :=
  match x with
  | .ok st => Q st
  | .error (e, st) => F e st

/-- The common shape of the five blocks: an optional guard, a parser call that may
fail, and the attachment of its result. Used only to reason about the blocks. -/
def genBlock {T : Sig} (env : Env T) (k : Kind) (guard : Bool) (args : List String)
    (res : Except T.Err (Op T)) (st : St T) : Flow T :=
  if guard then
    match res with
    | .error err =>
      .error (env.statusError .InvalidArgument (env.Error err),
        st.log (.parse k args (some err)))
    | .ok op => attach env op (st.log (.parse k args none))
  else .ok st

/-! ## Invariants of a run -/

/-- What holds after the blocks of index below `n` have fallen through: the request is
the entry request with the recorded attachments replayed, nothing failed, only blocks
below `n` made calls, every entered block below `n` parsed and attached, and every
recorded parser call is sound. -/
structure Inv {T : Sig} (env : Env T) (vals : Values) (req0 : T.Req) (n : Nat)
    (st : St T) : Prop where
  req_eq : st.req = replay env req0 st.trace
  clean : Clean st.trace
  kinds : ∀ ev ∈ st.trace, ∀ k, ev.kind? = some k → k.idx < n
  done : ∀ k, k.idx < n → guardOf env vals k = true → AttachedParsed env vals st.trace k
  sound : ∀ ev ∈ st.trace, Sound env vals ev

/-- What holds when a block of kind `kf` returns the error `e`: the failed call `evf`
is the last one recorded, `e` is the error the interceptor makes of it, and the calls
before it are those of a clean run up to that block. -/
structure FailedAt {T : Sig} (env : Env T) (vals : Values) (req0 : T.Req) (e : T.Err)
    (st : St T) (tr0 : List (Event T)) (evf : Event T) (kf : Kind) : Prop where
  trace_eq : st.trace = tr0 ++ [evf]
  failed : evf.failed = true
  kind_eq : evf.kind? = some kf
  err_eq : errorOf env evf = some e
  req_eq : st.req = replay env req0 st.trace
  clean : Clean tr0
  kinds : ∀ ev ∈ tr0, ∀ k, ev.kind? = some k →
    k.idx < kf.idx ∨ (k = kf ∧ evf.isSet = true ∧ ev.isSet = false)
  done : ∀ k, k.idx < kf.idx → guardOf env vals k = true → AttachedParsed env vals tr0 k
  sound : ∀ ev ∈ st.trace, Sound env vals ev

/-- Some block returned the error `e` in state `st`. -/
def Failed {T : Sig} (env : Env T) (vals : Values) (req0 : T.Req) (e : T.Err)
    (st : St T) : Prop :=
  ∃ tr0 evf kf, FailedAt env vals req0 e st tr0 evf kf

/-- The three ways a call of the interceptor with a query-URL header ends. -/
inductive Ending {T : Sig} (env : Env T) (parentCtx : T.Ctx) (method : String)
    (req : T.Req) (reply : T.Reply) (cc : T.Conn) (opts : List T.CallOption)
    (raw : String) (out : Result T) : Prop where
  | badURL (err : T.Err) (hu : env.urlParse raw = .error err)
      (hout : out = ⟨some (env.statusError .InvalidArgument (env.Error err)), req,
        [Event.urlParse raw (some err)]⟩)
  | failed (u : T.URL) (hu : env.urlParse raw = .ok u) (e : T.Err) (st : St T)
      (hf : Failed env (env.Query u) req e st) (hout : out = ⟨some e, st.req, st.trace⟩)
  | forwarded (u : T.URL) (hu : env.urlParse raw = .ok u) (st : St T)
      (hi : Inv env (env.Query u) req 5 st)
      (hout : out = ⟨env.invoker parentCtx method st.req reply cc opts, st.req,
        st.trace ++ [Event.invoke ⟨parentCtx, method, st.req, reply, cc, opts⟩]⟩)


/-! ## A concrete instance of the collaborators -/

/-- Go errors of the concrete instance: a gRPC status error or a plain error. -/
inductive DemoErr where
  | status (c : Code) (msg : String)
  | plain (msg : String)
  deriving DecidableEq

/-- The concrete instance's types: the context is its query-URL header (if any), the
request is the list of operations attached to it, a URL is its list of query pairs,
operations are kept as the strings they were parsed from. -/
abbrev demoSig : Sig where
  Ctx := Option String
  Req := List String
  Reply := Unit
  Conn := Unit
  CallOption := Unit
  URL := List (String × String)
  Err := DemoErr
  Sorting := String
  FieldSelection := String
  Filtering := String
  Searching := String
  Pagination := String × String × String

/-- The query pairs of the URLs used below. -/
def demoPairs : String → List (String × String)
  | "/v1/humans?_order_by=,&_filter=age>1" => [("_order_by", ","), ("_filter", "age>1")]
  | "/v1/humans?_order_by=name&_filter=(" => [("_order_by", "name"), ("_filter", "(")]
  | "/v1/humans?_order_by=&_fields=name" => [("_order_by", ""), ("_fields", "name")]
  | _ => []

/-- The label under which the concrete `SetCollectionOps` stores an operation. -/
def demoLabel : Op demoSig → String
  | .sorting s => "sorting:" ++ s
  | .fieldSelection fs => "fields:" ++ fs
  | .filtering f => "filtering:" ++ f
  | .searching s => "searching:" ++ s
  | .pagination p => "pagination:" ++ p.1 ++ "," ++ p.2.1 ++ "," ++ p.2.2

/-- A concrete instance: the query keys named in the comments of `gateway.go`, a sort
parser rejecting an empty token, a filter parser rejecting an unbalanced group, a
pagination parser rejecting a negative limit, a request that accepts every kind. -/
def demoEnv : Env demoSig where
  query_url := "query_url"
  sortQueryKey := "_order_by"
  fieldsQueryKey := "_fields"
  filterQueryKey := "_filter"
  searchQueryKey := "_fts"
  limitQueryKey := "_limit"
  offsetQueryKey := "_offset"
  pageTokenQueryKey := "_page_token"
  Header := fun ctx key => if key = "query_url" then ctx else none
  urlParse := fun raw =>
    if raw = ":" then .error (.plain "missing protocol scheme") else .ok (demoPairs raw)
  Query := fun u key => (u.filter fun p => p.1 == key).map fun p => p.2
  Error := fun e => match e with
    | .status _ msg => "rpc error: " ++ msg
    | .plain msg => msg
  statusError := DemoErr.status
  ParseSorting := fun v => if v = "," then .error (.plain "empty sort field") else .ok v
  ParseFieldSelection := fun v => v
  ParseFiltering := fun v => if v = "(" then .error (.plain "unbalanced group") else .ok v
  ParseSearching := fun v => v
  ParsePagination := fun l o pt =>
    if l = "-1" then .error (.plain "negative limit") else .ok (l, o, pt)
  SetCollectionOps := fun req op => (req ++ [demoLabel op], none)
  invoker := fun _ _ _ _ _ _ => none

/-- The concrete interceptor on the header value `raw` (or no header), with an empty
request. -/
def demoRun (hdr : Option String) : Result demoSig :=
  ClientUnaryInterceptor demoEnv hdr "/svc/List" [] () () []

/-- The concrete instance with a request that cannot be mutated: `SetCollectionOps`
leaves it as it is and returns an internal error. -/
def frozenEnv : Env demoSig where
  query_url := demoEnv.query_url
  sortQueryKey := demoEnv.sortQueryKey
  fieldsQueryKey := demoEnv.fieldsQueryKey
  filterQueryKey := demoEnv.filterQueryKey
  searchQueryKey := demoEnv.searchQueryKey
  limitQueryKey := demoEnv.limitQueryKey
  offsetQueryKey := demoEnv.offsetQueryKey
  pageTokenQueryKey := demoEnv.pageTokenQueryKey
  Header := demoEnv.Header
  urlParse := demoEnv.urlParse
  Query := demoEnv.Query
  Error := demoEnv.Error
  statusError := demoEnv.statusError
  ParseSorting := demoEnv.ParseSorting
  ParseFieldSelection := demoEnv.ParseFieldSelection
  ParseFiltering := demoEnv.ParseFiltering
  ParseSearching := demoEnv.ParseSearching
  ParsePagination := demoEnv.ParsePagination
  SetCollectionOps := fun req _ => (req, some (.status .Internal "request is not mutable"))
  invoker := demoEnv.invoker


/-! ## Endpoint registration -/

/-- How a Go function ends: with a value, with a returned error, or with a run-time
panic. -/
inductive Run (α : Type) where
  | ok (a : α)
  | err (e : String)
  | panic (msg : String)
  deriving DecidableEq

/-- A Go string: the sequence of its bytes. `len` is its length and a slice
expression cuts between bytes, also inside a multi-byte character. -/
abbrev GoString := List Nat

/-- The UTF-8 encoding of a character. -/
def utf8Bytes (c : Char) : List Nat :=
  if c.toNat < 0x80 then [c.toNat]
  else if c.toNat < 0x800 then [0xC0 + c.toNat / 0x40, 0x80 + c.toNat % 0x40]
  else if c.toNat < 0x10000 then
    [0xE0 + c.toNat / 0x1000, 0x80 + c.toNat / 0x40 % 0x40, 0x80 + c.toNat % 0x40]
  else
    [0xF0 + c.toNat / 0x40000, 0x80 + c.toNat / 0x1000 % 0x40,
      0x80 + c.toNat / 0x40 % 0x40, 0x80 + c.toNat % 0x40]

/-- The Go string denoted by a string literal: its UTF-8 bytes. -/
def goString (s : String) : GoString :=
  s.data.flatMap utf8Bytes

/-- Go's slice expression `s[:hi]` on a string: a run-time panic unless
`0 ≤ hi ≤ len(s)`, the first `hi` bytes otherwise. -/
def sliceTo (s : GoString) (hi : Int) : Except String GoString :=
  if 0 ≤ hi ∧ hi ≤ (s.length : Int) then .ok (s.take hi.toNat)
  else .error "slice bounds out of range"

/-- `grpc.DialOption`, by name. -/
abbrev DialOption := String

/-- `runtime.ServeMuxOption`, by name. -/
abbrev ServeMuxOption := String

/-- `registerFunc`: given the server address and the dial options it returns an error
or `nil` (the context is `context.Background()`, the mux the fresh gateway mux). -/
abbrev registerFunc := String → List DialOption → Option String

/-- What `g.mux.Handle(pattern, http.StripPrefix(stripped, gwmux))` installs: the
pattern, the string given to `StripPrefix`, and the options of the gateway mux. -/
structure Handle where
  pattern : GoString
  stripped : GoString
  muxOptions : List ServeMuxOption
  deriving DecidableEq

/-- The struct `gateway`. The map `endpoints` is kept as the list of its entries in the
order in which `range` visits them; `mux` is the list of handlers installed so far. -/
structure gateway where
  serverAddress : String
  serverDialOptions : List DialOption
  endpoints : List (GoString × List registerFunc)
  mux : List Handle
  gatewayMuxOptions : List ServeMuxOption

/-- `DefaultServerAddress`. -/
def DefaultServerAddress : String := ":9090"

/-- The inner loop of `registerEndpoints`: the first error returned by a register. -/
def runRegisters (g : gateway) : List registerFunc → Option String
  | [] => none
  | register :: rest =>
    match register g.serverAddress g.serverDialOptions with
    | some err => some err
    | none => runRegisters g rest

/-- The outer loop of `registerEndpoints` over the entries still to visit. -/
def registerLoop (g : gateway) : List (GoString × List registerFunc) → List Handle →
    Run (List Handle)
  | [], mux => .ok mux
  | (pfx, registers) :: rest, mux =>
    let opts := ["WithErrorHandler(ProtoMessageErrorHandler)", "WithMetadata(MetadataAnnotator)"]
      ++ g.gatewayMuxOptions
    match runRegisters g registers with
    | some err => .err err
    | none =>
      match sliceTo pfx ((pfx.length : Int) - 1) with
      | .error msg => .panic msg
      | .ok stripped => registerLoop g rest (mux ++ [⟨pfx, stripped, opts⟩])

/-- `registerEndpoints` (lines 121-140 of `gateway.go`). -/
def registerEndpoints (g : gateway) : Run (List Handle) :=
  registerLoop g g.endpoints g.mux

/-- `g.endpoints[key] = append(g.endpoints[key], endpoints...)` on the list of entries. -/
def appendEndpoints (key : GoString) (endpoints : List registerFunc) :
    List (GoString × List registerFunc) → List (GoString × List registerFunc)
  | [] => [(key, endpoints)]
  | (k, rs) :: rest =>
    if k = key then (k, rs ++ endpoints) :: rest
    else (k, rs) :: appendEndpoints key endpoints rest

/-- `WithEndpointRegistration` (lines 149-156 of `gateway.go`). -/
def WithEndpointRegistration (pfx : GoString) (endpoints : List registerFunc) :
    gateway → gateway :=
  fun g => ⟨g.serverAddress, g.serverDialOptions,
    appendEndpoints pfx endpoints g.endpoints, g.mux, g.gatewayMuxOptions⟩

/-- `NewGateway` (lines 104-119 of `gateway.go`). -/
def NewGateway (options : List (gateway → gateway)) : Run (List Handle) :=
  let g : gateway := ⟨DefaultServerAddress,
    ["WithInsecure()", "WithUnaryInterceptor(ClientUnaryInterceptor)"], [], [], []⟩
  registerEndpoints (options.foldl (fun g opt => opt g) g)

end Gateway

namespace Gorm

/-! ## Field-path resolver (modelled from the specification) -/

/-- Modelled from the spec: one entry of a model description (spec §3, "Model
Description"): the field's declared name, its explicit column override if any, and its
type. The Go struct types and tags of the tests stand behind it. -/
structure Field (τ : Type) where
  name : String
  column : Option String
  type : τ

/-- Modelled from the spec: the field types the resolver distinguishes (spec §4.4): a
primitive, the timestamp type `time.Time`, a struct with its name, storage name and
field descriptions, and a pointer to a type. -/
inductive GoType where
  | basic (name : String)
  | time
  | struct (name : String) (table : String) (fields : List (Field GoType))
  | ptr (elem : GoType)

/-- Modelled from the spec: `isModel`, whose source is not available (spec §4.4): a
structured type or a pointer to one is a model, except the timestamp type and its
pointer form; primitives and pointers to them are not. -/
def isModel : GoType → Bool
  | .struct _ _ _ => true
  | .ptr (.struct _ _ _) => true
  | _ => false

/-- Modelled from the spec: the storage name and field descriptions of a model type
(a struct or a pointer to one). -/
def modelOf : GoType → Option (String × List (Field GoType))
  | .struct _ table fields => some (table, fields)
  | .ptr (.struct _ table fields) => some (table, fields)
  | _ => none

/-- Modelled from the spec: the normalized lower-snake-case form of a name, on its
characters: every letter in lower case, with `_` before an upper-case letter that
follows a lower-case letter or a digit. -/
def snakeChars : Bool → List Char → List Char
  | _, [] => []
  | afterLower, c :: cs =>
    if c.isUpper then
      (if afterLower then ['_', c.toLower] else [c.toLower]) ++ snakeChars false cs
    else c :: snakeChars (c.isLower || c.isDigit) cs

/-- Modelled from the spec: the column form of a declared name (spec §4.3, "Column
naming"). -/
def normalize (name : String) : String :=
  String.mk (snakeChars false name.data)

/-- Modelled from the spec: a field's storage column name, its explicit override when
one is declared and the normalized form of its name otherwise. -/
def columnName (f : Field GoType) : String :=
  match f.column with
  | some c => c
  | none => normalize f.name

/-- Modelled from the spec: the field of a model named by a path segment. The spec
does not say how a segment is compared with a declared name; the test table pairs
`name`, `age`, `child` with `Name`, `Age`, `Child`, so the segment is compared with
the normalized form of the declared name. -/
def lookup (fields : List (Field GoType)) (seg : String) : Option (Field GoType) :=
  fields.find? fun f => normalize f.name == seg

/-- Modelled from the spec: the resolution errors of spec §4.3 and the rejection of a
path with more than one association hop (spec §9). -/
inductive ResolveError where
  | emptyPath
  | fieldNotFound (seg : String)
  | invalidTraversal (seg : String)
  | tooManyHops
  deriving DecidableEq

/-- Modelled from the spec: the walk of spec §4.3 over the segments of a path against
the fields of the current model. `qualifier` prefixes the column (the table of the root
model, or the column form of the association's field name after a hop), `assoc` is the
declared name of the association traversed (empty at the root), `hops` the number of
associations traversed. An error comes with an empty column and association. -/
def walk (qualifier assoc : String) (hops : Nat) (fields : List (Field GoType)) :
    List String → String × String × Option ResolveError
  | [] => ("", "", some .emptyPath)
  | [seg] =>
    match lookup fields seg with
    | none => ("", "", some (.fieldNotFound seg))
    | some f =>
      if isModel f.type then ("", "", some (.invalidTraversal seg))
      else (qualifier ++ "." ++ columnName f, assoc, none)
  | seg :: rest =>
    match lookup fields seg with
    | none => ("", "", some (.fieldNotFound seg))
    | some f =>
      if isModel f.type then
        match modelOf f.type with
        | none => ("", "", some (.invalidTraversal seg))
        | some (_, fields1) =>
          if hops ≥ 1 then ("", "", some .tooManyHops)
          else walk (normalize f.name) f.name (hops + 1) fields1 rest
      else ("", "", some (.invalidTraversal seg))

/-- Modelled from the spec: `HandleFieldPath`, whose source is not available (spec
§4.3): resolve a field path against a root model object to a column, an association
name and an error (`none` is `nil`). A root that is no model has no fields. -/
def HandleFieldPath (fieldPath : List String) (obj : GoType) :
    String × String × Option ResolveError :=
  match modelOf obj with
  | some (table, fields) => walk table "" 0 fields fieldPath
  | none => walk "" "" 0 [] fieldPath

/-- The struct `Child` of `utilities_test.go`; it declares no table name. -/
def Child : GoType :=
  .struct "Child" "children" [⟨"Name", none, .basic "string"⟩]

/-- The struct `Human` of `utilities_test.go`, with `TableName() = "db_humans"` and the
tag `gorm:"column:years"` on `Age`. -/
def Human : GoType :=
  .struct "Human" "db_humans"
    [⟨"Name", none, .basic "string"⟩, ⟨"Age", some "years", .basic "uint32"⟩,
      ⟨"Child", none, .ptr Child⟩]

/-- A model with a timestamp field and a pointer-to-timestamp field. -/
def Booking : GoType :=
  .struct "Booking" "bookings"
    [⟨"CreatedAt", none, .time⟩, ⟨"DeletedAt", none, .ptr .time⟩]

end Gorm


namespace Gateway

/-! ## The blocks in their common shape -/

theorem sortBlock_eq {T : Sig} (env : Env T) (vals : Values) (st : St T) :
    sortBlock env vals st =
      genBlock env .sorting (guardOf env vals .sorting) [vals.Get env.sortQueryKey]
        ((env.ParseSorting (vals.Get env.sortQueryKey)).map Op.sorting) st := by
  unfold sortBlock genBlock guardOf
  by_cases h : vals.Get env.sortQueryKey = ""
  · simp [h]
  · simp only [ne_eq, h, not_false_eq_true, if_true, decide_True]
    cases env.ParseSorting (vals.Get env.sortQueryKey) <;> rfl

theorem fieldsBlock_eq {T : Sig} (env : Env T) (vals : Values) (st : St T) :
    fieldsBlock env vals st =
      genBlock env .fieldSelection (guardOf env vals .fieldSelection)
        [vals.Get env.fieldsQueryKey]
        (.ok (Op.fieldSelection (env.ParseFieldSelection (vals.Get env.fieldsQueryKey)))) st := by
  unfold fieldsBlock genBlock guardOf
  by_cases h : vals.Get env.fieldsQueryKey = ""
  · simp [h]
  · simp only [ne_eq, h, not_false_eq_true, if_true, decide_True]

theorem filterBlock_eq {T : Sig} (env : Env T) (vals : Values) (st : St T) :
    filterBlock env vals st =
      genBlock env .filtering (guardOf env vals .filtering) [vals.Get env.filterQueryKey]
        ((env.ParseFiltering (vals.Get env.filterQueryKey)).map Op.filtering) st := by
  unfold filterBlock genBlock guardOf
  by_cases h : vals.Get env.filterQueryKey = ""
  · simp [h]
  · simp only [ne_eq, h, not_false_eq_true, if_true, decide_True]
    cases env.ParseFiltering (vals.Get env.filterQueryKey) <;> rfl

theorem searchBlock_eq {T : Sig} (env : Env T) (vals : Values) (st : St T) :
    searchBlock env vals st =
      genBlock env .searching (guardOf env vals .searching) [vals.Get env.searchQueryKey]
        (.ok (Op.searching (env.ParseSearching (vals.Get env.searchQueryKey)))) st := by
  unfold searchBlock genBlock guardOf
  by_cases h : vals.Get env.searchQueryKey = ""
  · simp [h]
  · simp only [ne_eq, h, not_false_eq_true, if_true, decide_True]

theorem paginationBlock_eq {T : Sig} (env : Env T) (vals : Values) (st : St T) :
    paginationBlock env vals st =
      genBlock env .pagination (guardOf env vals .pagination)
        [vals.Get env.limitQueryKey, vals.Get env.offsetQueryKey,
          vals.Get env.pageTokenQueryKey]
        ((env.ParsePagination (vals.Get env.limitQueryKey) (vals.Get env.offsetQueryKey)
          (vals.Get env.pageTokenQueryKey)).map Op.pagination) st := by
  unfold paginationBlock genBlock guardOf
  simp only [if_true]
  cases env.ParsePagination (vals.Get env.limitQueryKey) (vals.Get env.offsetQueryKey)
    (vals.Get env.pageTokenQueryKey) <;> rfl


/-! ## Supporting lemmas for the interceptor -/

theorem Kind.idx_inj {a b : Kind} (h : a.idx = b.idx) : a = b := by
  cases a <;> cases b <;> simp [Kind.idx] at h <;> rfl

theorem replay_append {T : Sig} (env : Env T) (req : T.Req) (tr1 tr2 : List (Event T)) :
    replay env req (tr1 ++ tr2) = replay env (replay env req tr1) tr2 := by
  simp [replay, List.foldl_append]

theorem AttachedParsed.mono {T : Sig} {env : Env T} {vals : Values}
    {tr tr2 : List (Event T)} {k : Kind}
    (h : AttachedParsed env vals tr k) : AttachedParsed env vals (tr ++ tr2) k := by
  obtain ⟨op, hk, hp, hs⟩ := h
  exact ⟨op, hk, List.mem_append_left _ hp, List.mem_append_left _ hs⟩

theorem okPart_map_kind {T : Sig} {α : Type} (f : α → Op T) (k : Kind)
    (hf : ∀ a, (f a).kind = k) (r : Except T.Err α) (op : Op T)
    (h : okPart (r.map f) = some op) : op.kind = k := by
  cases r with
  | error e => simp [Except.map, okPart] at h
  | ok a => simp only [Except.map, okPart, Option.some.injEq] at h; rw [← h]; exact hf a

/-- The operation returned by the parser of a kind is of that kind. -/
theorem parsedOp_kind {T : Sig} (env : Env T) (vals : Values) (k : Kind) (op : Op T)
    (h : parsedOp env vals k = some op) : op.kind = k := by
  cases k with
  | sorting => exact okPart_map_kind Op.sorting .sorting (fun _ => rfl) _ op h
  | fieldSelection => simp only [parsedOp, Option.some.injEq] at h; rw [← h]; rfl
  | filtering => exact okPart_map_kind Op.filtering .filtering (fun _ => rfl) _ op h
  | searching => simp only [parsedOp, Option.some.injEq] at h; rw [← h]; rfl
  | pagination => exact okPart_map_kind Op.pagination .pagination (fun _ => rfl) _ op h

theorem AttachedParsed.attached {T : Sig} {env : Env T} {vals : Values}
    {tr : List (Event T)} {k : Kind}
    (h : AttachedParsed env vals tr k) : Attached tr k := by
  obtain ⟨op, hk, hp, hs⟩ := h
  exact ⟨keyArgs env vals k, op, parsedOp_kind env vals k op hk, hp, hs⟩

theorem forall_mem_snoc {α : Type} {P : α → Prop} {l : List α} {a : α}
    (hl : ∀ x ∈ l, P x) (ha : P a) : ∀ x ∈ l ++ [a], P x := by
  intro x hx
  rcases List.mem_append.mp hx with h1 | h1
  · exact hl x h1
  · simp only [List.mem_singleton] at h1; subst h1; exact ha

theorem Flow.Sat.bind {T : Sig} {x : Flow T} {f : St T → Flow T}
    {P Q : St T → Prop} {F : T.Err → St T → Prop}
    (hx : x.Sat P F) (hf : ∀ st, P st → (f st).Sat Q F) : Flow.Sat (x >>= f) Q F := by
  cases x with
  | error p => exact hx
  | ok st => exact hf st hx

/-- The generic block keeps the invariant when it falls through and fails as
described by `Failed` when it returns. -/
theorem genBlock_spec {T : Sig} (env : Env T) (vals : Values) (req0 : T.Req) (k : Kind)
    (args : List String) (res : Except T.Err (Op T)) (st : St T)
    (hres : ∀ op, res = .ok op → op.kind = k)
    (hargs : args = keyArgs env vals k) (hpe : parserErr env k args = some (errPart res))
    (hpo : parsedOp env vals k = okPart res)
    (h : Inv env vals req0 k.idx st) :
    (genBlock env k (guardOf env vals k) args res st).Sat
      (Inv env vals req0 (k.idx + 1)) (Failed env vals req0) := by
  have hreq : List.foldl (applyEvent env) req0 st.trace = st.req := h.req_eq.symm
  unfold genBlock
  cases hg : guardOf env vals k with
  | false =>
    simp only [Bool.false_eq_true, if_false, Flow.Sat]
    refine ⟨h.req_eq, h.clean, fun ev hev k1 hk1 => Nat.lt_succ_of_lt (h.kinds ev hev k1 hk1),
      fun k1 hk1 hg1 => ?_, h.sound⟩
    rcases Nat.lt_succ_iff_lt_or_eq.mp hk1 with hlt | heq
    · exact h.done k1 hlt hg1
    · rw [Kind.idx_inj heq, hg] at hg1; exact absurd hg1 (by simp)
  | true =>
    simp only [if_true]
    cases res with
    | error err =>
      simp only [Flow.Sat]
      refine ⟨st.trace, .parse k args (some err), k, rfl, rfl, rfl, rfl, ?_, h.clean,
        fun ev hev k1 hk1 => Or.inl (h.kinds ev hev k1 hk1), h.done,
        forall_mem_snoc h.sound ⟨hargs, hg, hpe⟩⟩
      simp [St.log, replay, applyEvent, List.foldl_append, hreq]
    | ok op =>
      have hk : op.kind = k := hres op rfl
      have hpo1 : parsedOp env vals op.kind = some op := by rw [hk, hpo]; rfl
      unfold attach
      have hclean : Clean (st.trace ++ [Event.parse k args none]) :=
        forall_mem_snoc h.clean ⟨rfl, rfl⟩
      have hsound : ∀ ev ∈ st.trace ++ [Event.parse k args none], Sound env vals ev :=
        forall_mem_snoc h.sound ⟨hargs, hg, hpe⟩
      cases hr : (env.SetCollectionOps (st.log (.parse k args none)).req op).2 with
      | some e =>
        simp only [hr, Flow.Sat]
        refine ⟨st.trace ++ [.parse k args none], .set op (some e), k, rfl, rfl,
          by simp [Event.kind?, hk], rfl, ?_, hclean, ?_, ?_,
          forall_mem_snoc hsound ⟨hpo1, _, hr⟩⟩
        · simp [St.log, replay, applyEvent, List.foldl_append, hreq]
        · intro ev hev k1 hk1
          rcases List.mem_append.mp hev with h1 | h1
          · exact Or.inl (h.kinds ev h1 k1 hk1)
          · simp only [List.mem_singleton] at h1; subst h1
            simp only [Event.kind?, Option.some.injEq] at hk1
            exact Or.inr ⟨hk1.symm, rfl, rfl⟩
        · intro k1 hk1 hg1; exact (h.done k1 hk1 hg1).mono
      | none =>
        simp only [hr, Flow.Sat]
        refine ⟨?_, forall_mem_snoc hclean ⟨rfl, rfl⟩, ?_, ?_,
          forall_mem_snoc hsound ⟨hpo1, _, hr⟩⟩
        · simp [St.log, replay, applyEvent, List.foldl_append, hreq]
        · intro ev hev k1 hk1
          simp only [St.log, List.mem_append, List.mem_singleton] at hev
          rcases hev with (h1 | h1) | h1
          · exact Nat.lt_succ_of_lt (h.kinds ev h1 k1 hk1)
          · subst h1; simp only [Event.kind?, Option.some.injEq] at hk1
            rw [← hk1]; exact Nat.lt_succ_self _
          · subst h1; simp only [Event.kind?, Option.some.injEq] at hk1
            rw [← hk1, hk]; exact Nat.lt_succ_self _
        · intro k1 hk1 hg1
          rcases Nat.lt_succ_iff_lt_or_eq.mp hk1 with hlt | heq
          · exact ((h.done k1 hlt hg1).mono).mono
          · have hkk := Kind.idx_inj heq
            subst hkk
            exact ⟨op, by rw [hpo]; rfl, by simp [St.log, hargs], by simp [St.log]⟩

/-- The generic block makes no call of kind `k0` when it is of another kind or its
guard is closed. -/
theorem genBlock_noKind {T : Sig} (env : Env T) (k k0 : Kind) (guard : Bool)
    (args : List String) (res : Except T.Err (Op T)) (st : St T)
    (hres : ∀ op, res = .ok op → op.kind = k) (hne : k ≠ k0 ∨ guard = false)
    (h : NoKind k0 st.trace) :
    (genBlock env k guard args res st).Sat
      (fun st1 => NoKind k0 st1.trace) (fun _ st1 => NoKind k0 st1.trace) := by
  unfold genBlock
  cases guard with
  | false => simpa [Flow.Sat] using h
  | true =>
    have hk : k ≠ k0 := by
      rcases hne with h1 | h1
      · exact h1
      · exact absurd h1 (by simp)
    have hp : ∀ o, NoKind k0 (st.trace ++ [Event.parse k args o]) := fun o =>
      forall_mem_snoc h (by simpa [Event.kind?] using hk)
    simp only [if_true]
    cases res with
    | error err => exact hp (some err)
    | ok op =>
      have hop : op.kind = k := hres op rfl
      have hs : ∀ o, NoKind k0 (st.trace ++ [Event.parse k args none]
          ++ [Event.set op o]) := fun o =>
        forall_mem_snoc (hp none) (by simpa [Event.kind?, hop] using hk)
      unfold attach
      cases hr : (env.SetCollectionOps (st.log (.parse k args none)).req op).2 with
      | some e => simp only [hr, Flow.Sat]; exact hs _
      | none => simp only [hr, Flow.Sat]; exact hs _


/-! ## The five blocks in sequence -/

theorem map_kind {T : Sig} {α : Type} (f : α → Op T) (k : Kind) (hf : ∀ a, (f a).kind = k)
    (r : Except T.Err α) : ∀ op, r.map f = .ok op → op.kind = k := by
  intro op h
  cases r with
  | error e => simp [Except.map] at h
  | ok a => simp only [Except.map, Except.ok.injEq] at h; rw [← h]; exact hf a

theorem errPart_map {ε α β : Type} (f : α → β) (r : Except ε α) :
    errPart (r.map f) = errPart r := by
  cases r <;> rfl

/-- After the URL has parsed, the five blocks either all fall through, keeping the
invariant for all five kinds, or one of them fails as described by `Failed`. -/
theorem blocks_spec {T : Sig} (env : Env T) (vals : Values) (req0 : T.Req) (st : St T)
    (h : Inv env vals req0 0 st) :
    Flow.Sat
      ((sortBlock env vals st) >>= fun st1 =>
        (fieldsBlock env vals st1) >>= fun st2 =>
        (filterBlock env vals st2) >>= fun st3 =>
        (searchBlock env vals st3) >>= fun st4 =>
        paginationBlock env vals st4)
      (Inv env vals req0 5) (Failed env vals req0) := by
  refine Flow.Sat.bind (P := Inv env vals req0 1) ?_ fun st1 h1 => ?_
  · rw [sortBlock_eq]
    exact genBlock_spec env vals req0 .sorting _ _ st
      (map_kind Op.sorting .sorting (fun _ => rfl) _) rfl (by simp [parserErr, errPart_map]) rfl h
  refine Flow.Sat.bind (P := Inv env vals req0 2) ?_ fun st2 h2 => ?_
  · rw [fieldsBlock_eq]
    exact genBlock_spec env vals req0 .fieldSelection _ _ st1
      (fun op hop => by cases hop; rfl) rfl rfl rfl h1
  refine Flow.Sat.bind (P := Inv env vals req0 3) ?_ fun st3 h3 => ?_
  · rw [filterBlock_eq]
    exact genBlock_spec env vals req0 .filtering _ _ st2
      (map_kind Op.filtering .filtering (fun _ => rfl) _) rfl (by simp [parserErr, errPart_map]) rfl h2
  refine Flow.Sat.bind (P := Inv env vals req0 4) ?_ fun st4 h4 => ?_
  · rw [searchBlock_eq]
    exact genBlock_spec env vals req0 .searching _ _ st3
      (fun op hop => by cases hop; rfl) rfl rfl rfl h3
  rw [paginationBlock_eq]
  exact genBlock_spec env vals req0 .pagination _ _ st4
    (map_kind Op.pagination .pagination (fun _ => rfl) _) rfl (by simp [parserErr, errPart_map]) rfl h4

/-- A kind whose guard is closed gets no call from any of the five blocks. -/
theorem blocks_noKind {T : Sig} (env : Env T) (vals : Values) (k0 : Kind) (st : St T)
    (hg : guardOf env vals k0 = false) (h : NoKind k0 st.trace) :
    Flow.Sat
      ((sortBlock env vals st) >>= fun st1 =>
        (fieldsBlock env vals st1) >>= fun st2 =>
        (filterBlock env vals st2) >>= fun st3 =>
        (searchBlock env vals st3) >>= fun st4 =>
        paginationBlock env vals st4)
      (fun st1 => NoKind k0 st1.trace) (fun _ st1 => NoKind k0 st1.trace) := by
  have key : ∀ k : Kind, k ≠ k0 ∨ guardOf env vals k = false := fun k => by
    by_cases hk : k = k0
    · exact Or.inr (hk ▸ hg)
    · exact Or.inl hk
  refine Flow.Sat.bind (P := fun st1 => NoKind k0 st1.trace) ?_ fun st1 h1 => ?_
  · rw [sortBlock_eq]
    exact genBlock_noKind env .sorting k0 _ _ _ st (map_kind Op.sorting .sorting (fun _ => rfl) _) (key _) h
  refine Flow.Sat.bind (P := fun st1 => NoKind k0 st1.trace) ?_ fun st2 h2 => ?_
  · rw [fieldsBlock_eq]
    exact genBlock_noKind env .fieldSelection k0 _ _ _ st1
      (fun op hop => by cases hop; rfl) (key _) h1
  refine Flow.Sat.bind (P := fun st1 => NoKind k0 st1.trace) ?_ fun st3 h3 => ?_
  · rw [filterBlock_eq]
    exact genBlock_noKind env .filtering k0 _ _ _ st2 (map_kind Op.filtering .filtering (fun _ => rfl) _) (key _) h2
  refine Flow.Sat.bind (P := fun st1 => NoKind k0 st1.trace) ?_ fun st4 h4 => ?_
  · rw [searchBlock_eq]
    exact genBlock_noKind env .searching k0 _ _ _ st3
      (fun op hop => by cases hop; rfl) (key _) h3
  rw [paginationBlock_eq]
  exact genBlock_noKind env .pagination k0 _ _ _ st4 (map_kind Op.pagination .pagination (fun _ => rfl) _) (key _) h4

/-- The state in which the blocks start: the URL has parsed, nothing else happened. -/
theorem inv_start {T : Sig} (env : Env T) (vals : Values) (req0 : T.Req) (raw : String) :
    Inv env vals req0 0 ((⟨req0, []⟩ : St T).log (.urlParse raw none)) := by
  refine ⟨rfl, ?_, ?_, ?_, ?_⟩
  · intro ev hev; simp only [St.log, List.nil_append, List.mem_singleton] at hev
    subst hev; exact ⟨rfl, rfl⟩
  · intro ev hev k hk; simp only [St.log, List.nil_append, List.mem_singleton] at hev
    subst hev; simp [Event.kind?] at hk
  · intro k hk; exact absurd hk (Nat.not_lt_zero _)
  · intro ev hev; simp only [St.log, List.nil_append, List.mem_singleton] at hev
    subst hev; trivial

theorem interceptor_ending {T : Sig} (env : Env T) (parentCtx : T.Ctx) (method : String)
    (req : T.Req) (reply : T.Reply) (cc : T.Conn) (opts : List T.CallOption)
    (raw : String) (hraw : env.Header parentCtx env.query_url = some raw) :
    Ending env parentCtx method req reply cc opts raw
      (ClientUnaryInterceptor env parentCtx method req reply cc opts) := by
  unfold ClientUnaryInterceptor
  simp only [hraw]
  unfold collectionOps
  cases hu : env.urlParse raw with
  | error err => exact .badURL err hu rfl
  | ok u =>
    simp only []
    have hb := blocks_spec env (env.Query u) req _ (inv_start env (env.Query u) req raw)
    generalize hx : ((sortBlock env (env.Query u) ((⟨req, []⟩ : St T).log (.urlParse raw none)))
      >>= fun st1 => (fieldsBlock env (env.Query u) st1) >>= fun st2 =>
        (filterBlock env (env.Query u) st2) >>= fun st3 =>
        (searchBlock env (env.Query u) st3) >>= fun st4 =>
        paginationBlock env (env.Query u) st4) = x at hb
    cases x with
    | error p =>
      obtain ⟨e, st⟩ := p
      exact .failed u hu e st hb rfl
    | ok st => exact .forwarded u hu st hb rfl


/-! ## Properties of `ClientUnaryInterceptor` -/

theorem replay_of_no_set {T : Sig} (env : Env T) (tr : List (Event T)) :
    ∀ req, (∀ ev ∈ tr, ev.isSet = false) → replay env req tr = req := by
  induction tr with
  | nil => intro req _; rfl
  | cons ev tr ih =>
    intro req h
    have hev : ev.isSet = false := h ev (List.mem_cons_self _ _)
    have hr : applyEvent env req ev = req := by
      cases ev <;> first | rfl | simp [Event.isSet] at hev
    simp only [replay, List.foldl_cons, hr]
    exact ih req fun e he => h e (List.mem_cons_of_mem _ he)

theorem failed_not_invoke {T : Sig} {ev : Event T} (h : ev.failed = true) :
    ev.isInvoke = false := by
  cases ev <;> first | rfl | simp [Event.failed] at h

/-- Every parser call recorded by the interceptor is the call of that parser on the
values of its keys, entered through its guard, with the error the parser returns. -/
theorem trace_sound {T : Sig} (env : Env T) (parentCtx : T.Ctx) (method : String)
    (req : T.Req) (reply : T.Reply) (cc : T.Conn) (opts : List T.CallOption)
    (raw : String) (u : T.URL)
    (hraw : env.Header parentCtx env.query_url = some raw) (hu : env.urlParse raw = .ok u) :
    ∀ ev ∈ (ClientUnaryInterceptor env parentCtx method req reply cc opts).trace,
      Sound env (env.Query u) ev := by
  cases interceptor_ending env parentCtx method req reply cc opts raw hraw with
  | badURL err hu1 hout => rw [hu] at hu1; cases hu1
  | failed u1 hu1 e st hf hout =>
    rw [hu] at hu1; cases hu1
    obtain ⟨tr0, evf, kf, hfa⟩ := hf
    rw [hout]; exact hfa.sound
  | forwarded u1 hu1 st hi hout =>
    rw [hu] at hu1; cases hu1
    rw [hout]; exact forall_mem_snoc hi.sound trivial

theorem parserErr_of_parsedOp {T : Sig} (env : Env T) (vals : Values) (k : Kind)
    (op : Op T) (h : parsedOp env vals k = some op) :
    parserErr env k (keyArgs env vals k) = some none := by
  cases k with
  | fieldSelection => rfl
  | searching => rfl
  | sorting =>
    simp only [parsedOp] at h
    simp only [keyArgs, keysOf, List.map, parserErr]
    cases hp : env.ParseSorting (vals.Get env.sortQueryKey) with
    | error e => rw [hp] at h; simp [Except.map, okPart] at h
    | ok a => rfl
  | filtering =>
    simp only [parsedOp] at h
    simp only [keyArgs, keysOf, List.map, parserErr]
    cases hp : env.ParseFiltering (vals.Get env.filterQueryKey) with
    | error e => rw [hp] at h; simp [Except.map, okPart] at h
    | ok a => rfl
  | pagination =>
    simp only [parsedOp] at h
    simp only [keyArgs, keysOf, List.map, parserErr]
    cases hp : env.ParsePagination (vals.Get env.limitQueryKey)
        (vals.Get env.offsetQueryKey) (vals.Get env.pageTokenQueryKey) with
    | error e => rw [hp] at h; simp [Except.map, okPart] at h
    | ok a => rfl

/-- A kind that was parsed and attached does not fail to parse. -/
theorem parseFailure_of_attached {T : Sig} (env : Env T) (vals : Values) (k : Kind)
    (tr : List (Event T)) (h : AttachedParsed env vals tr k) :
    parseFailure env vals k = none := by
  obtain ⟨op, hop, _, _⟩ := h
  unfold parseFailure
  rw [parserErr_of_parsedOp env vals k op hop]
  simp

/-- What `parseFailure` says for the sort parser: a non-empty `_order_by` value on
which `ParseSorting` returns the error. -/
theorem parseFailure_sorting {T : Sig} (env : Env T) (vals : Values) (e : T.Err) :
    parseFailure env vals .sorting = some e ↔
      vals.Get env.sortQueryKey ≠ "" ∧
        env.ParseSorting (vals.Get env.sortQueryKey) = .error e := by
  unfold parseFailure
  simp only [guardOf, keyArgs, keysOf, List.map, parserErr, decide_eq_true_eq]
  by_cases hv : vals.Get env.sortQueryKey = ""
  · simp [hv]
  · cases hp : env.ParseSorting (vals.Get env.sortQueryKey) <;> simp [hv, errPart]

/-- What `parseFailure` says for the filter parser: a non-empty `_filter` value on
which `ParseFiltering` returns the error. -/
theorem parseFailure_filtering {T : Sig} (env : Env T) (vals : Values) (e : T.Err) :
    parseFailure env vals .filtering = some e ↔
      vals.Get env.filterQueryKey ≠ "" ∧
        env.ParseFiltering (vals.Get env.filterQueryKey) = .error e := by
  unfold parseFailure
  simp only [guardOf, keyArgs, keysOf, List.map, parserErr, decide_eq_true_eq]
  by_cases hv : vals.Get env.filterQueryKey = ""
  · simp [hv]
  · cases hp : env.ParseFiltering (vals.Get env.filterQueryKey) <;> simp [hv, errPart]

/-- What `parseFailure` says for the pagination parser: `ParsePagination` returns the
error on the three values, whatever they are. -/
theorem parseFailure_pagination {T : Sig} (env : Env T) (vals : Values) (e : T.Err) :
    parseFailure env vals .pagination = some e ↔
      env.ParsePagination (vals.Get env.limitQueryKey) (vals.Get env.offsetQueryKey)
        (vals.Get env.pageTokenQueryKey) = .error e := by
  unfold parseFailure
  simp only [guardOf, keyArgs, keysOf, List.map, parserErr, if_true]
  cases hp : env.ParsePagination (vals.Get env.limitQueryKey) (vals.Get env.offsetQueryKey)
    (vals.Get env.pageTokenQueryKey) <;> simp [errPart]

/-- `ParseFieldSelection` and `ParseSearching` return no error. -/
theorem parseFailure_none {T : Sig} (env : Env T) (vals : Values) :
    parseFailure env vals .fieldSelection = none ∧
      parseFailure env vals .searching = none := by
  constructor <;>
  · unfold parseFailure
    simp only [keyArgs, keysOf, List.map, parserErr]
    split <;> rfl

/-- Counterexample to C1: the request cannot be mutated, the query string is
`_order_by=name&_filter=(`. `ParseFiltering` returns an error for the value of
`_filter`, yet the interceptor returns the error of `SetCollectionOps` for the
sorting, as it is, and not an `InvalidArgument` error with the filter's message. -/
theorem C1_counterexample :
    frozenEnv.Header (some "/v1/humans?_order_by=name&_filter=(") frozenEnv.query_url =
        some "/v1/humans?_order_by=name&_filter=(" ∧
      frozenEnv.ParseFiltering
          ((frozenEnv.Query (demoPairs "/v1/humans?_order_by=name&_filter=(")).Get
            frozenEnv.filterQueryKey) = .error (.plain "unbalanced group") ∧
      (ClientUnaryInterceptor frozenEnv (some "/v1/humans?_order_by=name&_filter=(")
          "/svc/List" [] () () []).err =
        some (DemoErr.status .Internal "request is not mutable") ∧
      (ClientUnaryInterceptor frozenEnv (some "/v1/humans?_order_by=name&_filter=(")
          "/svc/List" [] () () []).err ≠
        some (frozenEnv.statusError .InvalidArgument
          (frozenEnv.Error (.plain "unbalanced group"))) ∧
      (ClientUnaryInterceptor frozenEnv (some "/v1/humans?_order_by=name&_filter=(")
          "/svc/List" [] () () []).trace =
        [.urlParse "/v1/humans?_order_by=name&_filter=(" none,
          .parse .sorting ["name"] none,
          .set (.sorting "name") (some (.status .Internal "request is not mutable"))] :=
  ⟨rfl, rfl, rfl, by decide, rfl⟩

/-- C1 (amended): when the context carries the query-URL header and either the URL
fails to parse with the error `e`, or the URL parses and a parser (`ParseSorting`,
`ParseFiltering`, `ParsePagination`) returns the error `e` for the value of its key
(a non-empty value for the two guarded parsers, as `parseFailure` says) while no
parser handled earlier fails on the value of its own key and `SetCollectionOps` returns
no error for operations of the kinds handled earlier, the interceptor returns
`status.Error(codes.InvalidArgument, e.Error())` and makes no call of the invoker. -/
theorem C1_parse_failure_is_invalid_argument {T : Sig} (env : Env T) (parentCtx : T.Ctx)
    (method : String) (req : T.Req) (reply : T.Reply) (cc : T.Conn)
    (opts : List T.CallOption) (raw : String) (e : T.Err)
    (hraw : env.Header parentCtx env.query_url = some raw)
    (h : env.urlParse raw = .error e ∨
      ∃ u k, env.urlParse raw = .ok u ∧ parseFailure env (env.Query u) k = some e ∧
        (∀ k1, k1.idx < k.idx → parseFailure env (env.Query u) k1 = none) ∧
        (∀ r op, op.kind.idx < k.idx → (env.SetCollectionOps r op).2 = none)) :
    (ClientUnaryInterceptor env parentCtx method req reply cc opts).err =
        some (env.statusError .InvalidArgument (env.Error e)) ∧
      ∀ ev ∈ (ClientUnaryInterceptor env parentCtx method req reply cc opts).trace,
        ev.isInvoke = false := by
  cases interceptor_ending env parentCtx method req reply cc opts raw hraw with
  | badURL err hu hout =>
    rw [hout]
    rcases h with h | ⟨u, k, h, _⟩
    · rw [hu] at h; cases h
      exact ⟨rfl, fun ev hev => by
        simp only [List.mem_singleton] at hev; subst hev; rfl⟩
    · rw [hu] at h; cases h
  | failed u hu e1 st hf hout =>
    obtain ⟨tr0, evf, kf, hfa⟩ := hf
    rw [hout]
    rcases h with h | ⟨u1, k, hu1, hpf, hearly, hset⟩
    · rw [hu] at h; cases h
    · rw [hu] at hu1; cases hu1
      have hnoinv : ∀ ev ∈ st.trace, ev.isInvoke = false := by
        simp only [hfa.trace_eq]
        exact forall_mem_snoc (fun ev hev => (hfa.clean ev hev).2)
          (failed_not_invoke hfa.failed)
      have hsf : Sound env (env.Query u) evf :=
        hfa.sound evf (by rw [hfa.trace_eq]; simp)
      rcases Nat.lt_trichotomy kf.idx k.idx with hlt | heq | hgt
      · -- an earlier block failed: excluded by the hypotheses
        have hfail := hfa.failed
        have hkind := hfa.kind_eq
        cases evf with
        | urlParse r o => simp [Event.kind?] at hkind
        | invoke c => simp [Event.kind?] at hkind
        | parse k2 args o =>
          simp only [Event.kind?, Option.some.injEq] at hkind
          subst hkind
          cases o with
          | none => simp [Event.failed] at hfail
          | some e2 =>
            obtain ⟨hargs, hg, hpe⟩ := hsf
            have := hearly k2 hlt
            rw [hargs] at hpe
            simp [parseFailure, hg, hpe] at this
        | set op o =>
          simp only [Event.kind?, Option.some.injEq] at hkind
          cases o with
          | none => simp [Event.failed] at hfail
          | some e2 =>
            obtain ⟨_, r, hr⟩ := hsf
            rw [hset r op (hkind ▸ hlt)] at hr
            cases hr
      · -- the block of kind `k` failed
        have hkk := Kind.idx_inj heq
        subst hkk
        have hfail := hfa.failed
        have hkind := hfa.kind_eq
        have herr := hfa.err_eq
        cases evf with
        | urlParse r o => simp [Event.kind?] at hkind
        | invoke c => simp [Event.kind?] at hkind
        | parse k2 args o =>
          simp only [Event.kind?, Option.some.injEq] at hkind
          subst hkind
          cases o with
          | none => simp [Event.failed] at hfail
          | some e2 =>
            obtain ⟨hargs, hg, hpe⟩ := hsf
            rw [hargs] at hpe
            simp only [parseFailure, hg, hpe, if_true, Option.some.injEq] at hpf
            subst hpf
            simp only [errorOf, Option.some.injEq] at herr
            exact ⟨by rw [← herr], hnoinv⟩
        | set op o =>
          simp only [Event.kind?, Option.some.injEq] at hkind
          obtain ⟨hpo, _⟩ := hsf
          rw [hkind] at hpo
          have := parserErr_of_parsedOp env (env.Query u) kf op hpo
          simp [parseFailure, this] at hpf
      · -- a later block failed: then the block of kind `k` was parsed and attached
        have hg : guardOf env (env.Query u) k = true := by
          unfold parseFailure at hpf
          by_cases hg : guardOf env (env.Query u) k = true
          · exact hg
          · simp [hg] at hpf
        have := parseFailure_of_attached env (env.Query u) k tr0 (hfa.done k hgt hg)
        rw [this] at hpf; cases hpf
  | forwarded u hu st hi hout =>
    rcases h with h | ⟨u1, k, hu1, hpf, _, _⟩
    · rw [hu] at h; cases h
    · rw [hu] at hu1; cases hu1
      have hg : guardOf env (env.Query u) k = true := by
        unfold parseFailure at hpf
        by_cases hg : guardOf env (env.Query u) k = true
        · exact hg
        · simp [hg] at hpf
      have hk5 : k.idx < 5 := by cases k <;> decide
      have := parseFailure_of_attached env (env.Query u) k st.trace (hi.done k hk5 hg)
      rw [this] at hpf; cases hpf

/-- Witness of C1 (amended): `_order_by=name` is parsed and attached, then the filter
value `(` is rejected by the concrete filter parser. -/
theorem C1_witness :
    (demoRun (some "/v1/humans?_order_by=name&_filter=(")).err =
        some (DemoErr.status .InvalidArgument "unbalanced group") ∧
      ∀ ev ∈ (demoRun (some "/v1/humans?_order_by=name&_filter=(")).trace,
        ev.isInvoke = false :=
  C1_parse_failure_is_invalid_argument demoEnv (some "/v1/humans?_order_by=name&_filter=(")
    "/svc/List" [] () () [] "/v1/humans?_order_by=name&_filter=(" (.plain "unbalanced group")
    rfl (Or.inr ⟨demoPairs "/v1/humans?_order_by=name&_filter=(", .filtering, rfl, rfl,
      fun k1 hk1 => by
        cases k1 with
        | sorting => rfl
        | fieldSelection => rfl
        | filtering => exact absurd hk1 (by decide)
        | searching => exact absurd hk1 (by decide)
        | pagination => exact absurd hk1 (by decide),
      fun _ _ _ => rfl⟩)

/-- Counterexample to C2: with `_order_by=,` (rejected by the sort parser) and the
well-formed `_filter=age>1`, the interceptor stops at the sort parser: the filter is
neither parsed nor attached, and the request stays empty. -/
theorem C2_counterexample :
    Event.parse .sorting [","] (some (DemoErr.plain "empty sort field")) ∈
        (demoRun (some "/v1/humans?_order_by=,&_filter=age>1")).trace ∧
      demoEnv.ParseFiltering "age>1" = .ok "age>1" ∧
      (demoRun (some "/v1/humans?_order_by=,&_filter=age>1")).trace =
        [.urlParse "/v1/humans?_order_by=,&_filter=age>1" none,
          .parse .sorting [","] (some (.plain "empty sort field"))] ∧
      ¬ Attached (demoRun (some "/v1/humans?_order_by=,&_filter=age>1")).trace .filtering ∧
      (demoRun (some "/v1/humans?_order_by=,&_filter=age>1")).req = [] := by
  have ht : (demoRun (some "/v1/humans?_order_by=,&_filter=age>1")).trace =
      [.urlParse "/v1/humans?_order_by=,&_filter=age>1" none,
        .parse .sorting [","] (some (.plain "empty sort field"))] := rfl
  refine ⟨by rw [ht]; simp, rfl, ht, ?_, rfl⟩
  rintro ⟨args, op, _, _, hs⟩
  rw [ht] at hs; simp at hs

/-- C2 (amended): a parser error aborts the whole call, not that operator only. When a
parser call of kind `k` returns an error, that call is the last thing the interceptor
does; every other recorded call belongs to an operator handled before `k` (so `k`
itself is not attached, and operators handled after `k` are neither parsed nor
attached); every operator handled before `k` whose block is entered has been parsed
and attached; the invoker is not called. -/
theorem C2_parser_error_aborts_call {T : Sig} (env : Env T) (parentCtx : T.Ctx)
    (method : String) (req : T.Req) (reply : T.Reply) (cc : T.Conn)
    (opts : List T.CallOption) (raw : String) (u : T.URL) (k : Kind) (args : List String)
    (e : T.Err)
    (hraw : env.Header parentCtx env.query_url = some raw) (hu : env.urlParse raw = .ok u)
    (h : Event.parse k args (some e) ∈
      (ClientUnaryInterceptor env parentCtx method req reply cc opts).trace) :
    (ClientUnaryInterceptor env parentCtx method req reply cc opts).trace.getLast? =
        some (Event.parse k args (some e)) ∧
      (∀ ev ∈ (ClientUnaryInterceptor env parentCtx method req reply cc opts).trace.dropLast,
        ∀ k1, ev.kind? = some k1 → k1.idx < k.idx) ∧
      (∀ k1, k1.idx < k.idx → guardOf env (env.Query u) k1 = true →
        Attached (ClientUnaryInterceptor env parentCtx method req reply cc opts).trace k1) ∧
      ∀ ev ∈ (ClientUnaryInterceptor env parentCtx method req reply cc opts).trace,
        ev.isInvoke = false := by
  cases interceptor_ending env parentCtx method req reply cc opts raw hraw with
  | badURL err hu1 hout => rw [hu] at hu1; cases hu1
  | failed u1 hu1 e1 st hf hout =>
    rw [hu] at hu1; cases hu1
    obtain ⟨tr0, evf, kf, hfa⟩ := hf
    rw [hout] at h ⊢
    simp only [hfa.trace_eq, List.mem_append, List.mem_singleton] at h
    rcases h with h | h
    · exact absurd (hfa.clean _ h).1 (by simp [Event.failed])
    · subst h
      have hk := hfa.kind_eq
      simp only [Event.kind?, Option.some.injEq] at hk
      subst hk
      simp only [hfa.trace_eq, List.getLast?_append, List.dropLast_concat]
      refine ⟨by simp, ?_, ?_, ?_⟩
      · intro ev hev k1 hk1
        rcases hfa.kinds ev hev k1 hk1 with h1 | ⟨_, h2, _⟩
        · exact h1
        · simp [Event.isSet] at h2
      · intro k1 hk1 hg; exact (hfa.done k1 hk1 hg).mono.attached
      · exact forall_mem_snoc (fun ev hev => (hfa.clean ev hev).2) rfl
  | forwarded u1 hu1 st hi hout =>
    rw [hout] at h
    simp only [List.mem_append, List.mem_singleton] at h
    rcases h with h | h
    · exact absurd (hi.clean _ h).1 (by simp [Event.failed])
    · cases h

/-- Witness of C2 (amended): `_order_by=name` is attached, then `_filter=(` is
rejected. -/
theorem C2_witness :
    (demoRun (some "/v1/humans?_order_by=name&_filter=(")).trace.getLast? =
        some (Event.parse .filtering ["("] (some (DemoErr.plain "unbalanced group"))) ∧
      (∀ ev ∈ (demoRun (some "/v1/humans?_order_by=name&_filter=(")).trace.dropLast,
        ∀ k1, ev.kind? = some k1 → k1.idx < Kind.filtering.idx) ∧
      (∀ k1, k1.idx < Kind.filtering.idx →
        guardOf demoEnv (demoEnv.Query (demoPairs "/v1/humans?_order_by=name&_filter=(")) k1
          = true →
        Attached (demoRun (some "/v1/humans?_order_by=name&_filter=(")).trace k1) ∧
      ∀ ev ∈ (demoRun (some "/v1/humans?_order_by=name&_filter=(")).trace,
        ev.isInvoke = false :=
  C2_parser_error_aborts_call demoEnv (some "/v1/humans?_order_by=name&_filter=(")
    "/svc/List" [] () () [] "/v1/humans?_order_by=name&_filter=("
    (demoPairs "/v1/humans?_order_by=name&_filter=(") .filtering ["("]
    (.plain "unbalanced group") rfl rfl (by
      have ht : (ClientUnaryInterceptor demoEnv (some "/v1/humans?_order_by=name&_filter=(")
          "/svc/List" [] () () []).trace =
        [.urlParse "/v1/humans?_order_by=name&_filter=(" none,
          .parse .sorting ["name"] none, .set (.sorting "name") none,
          .parse .filtering ["("] (some (.plain "unbalanced group"))] := rfl
      rw [ht]; simp)

/-- Counterexample to C3: on a URL without any query key the three pagination values
are empty, yet `ParsePagination` is run on them and its result is attached. -/
theorem C3_counterexample :
    (∀ key ∈ keysOf demoEnv .pagination, demoEnv.Query (demoPairs "/v1/humans") key = []) ∧
      (demoRun (some "/v1/humans")).trace =
        [.urlParse "/v1/humans" none, .parse .pagination ["", "", ""] none,
          .set (.pagination ("", "", "")) none,
          .invoke ⟨some "/v1/humans", "/svc/List", ["pagination:,,"], (), (), []⟩] ∧
      ¬ NoKind .pagination (demoRun (some "/v1/humans")).trace ∧
      (demoRun (some "/v1/humans")).req = ["pagination:,,"] := by
  have ht : (demoRun (some "/v1/humans")).trace =
      [.urlParse "/v1/humans" none, .parse .pagination ["", "", ""] none,
        .set (.pagination ("", "", "")) none,
        .invoke ⟨some "/v1/humans", "/svc/List", ["pagination:,,"], (), (), []⟩] := rfl
  refine ⟨fun key _ => rfl, ht, ?_, rfl⟩
  intro hn
  exact hn (.parse .pagination ["", "", ""] none) (by rw [ht]; simp) rfl

/-- C3 (amended): for sorting, field selection, filtering and searching, if the
operator's key is missing from the query string or present with an empty value, its
parser is not run and no operation of that kind is attached. Pagination has no such
test: whenever the call is forwarded to the invoker, `ParsePagination` has been run on
the values of its three keys, whatever they are (empty strings for missing keys), it
returned a value without error, and that value has been attached by
`SetCollectionOps` without error. -/
theorem C3_absent_operator_is_skipped {T : Sig} (env : Env T) (parentCtx : T.Ctx)
    (method : String) (req : T.Req) (reply : T.Reply) (cc : T.Conn)
    (opts : List T.CallOption) (raw : String) (u : T.URL)
    (hraw : env.Header parentCtx env.query_url = some raw) (hu : env.urlParse raw = .ok u) :
    (∀ k, k ≠ Kind.pagination →
        (∀ key ∈ keysOf env k,
          env.Query u key = [] ∨ (env.Query u key).head? = some "") →
        NoKind k (ClientUnaryInterceptor env parentCtx method req reply cc opts).trace) ∧
      ((∃ ev ∈ (ClientUnaryInterceptor env parentCtx method req reply cc opts).trace,
          ev.isInvoke = true) →
        ∃ p, env.ParsePagination ((env.Query u).Get env.limitQueryKey)
              ((env.Query u).Get env.offsetQueryKey)
              ((env.Query u).Get env.pageTokenQueryKey) = .ok p ∧
          Event.parse .pagination [(env.Query u).Get env.limitQueryKey,
              (env.Query u).Get env.offsetQueryKey,
              (env.Query u).Get env.pageTokenQueryKey] none ∈
            (ClientUnaryInterceptor env parentCtx method req reply cc opts).trace ∧
          Event.set (.pagination p) none ∈
            (ClientUnaryInterceptor env parentCtx method req reply cc opts).trace) := by
  constructor
  · intro k hk habs
    have hget : ∀ key ∈ keysOf env k, (env.Query u).Get key = "" := by
      intro key hkey
      unfold Values.Get
      rcases habs key hkey with h | h
      · rw [h]
      · cases hq : env.Query u key with
        | nil => rfl
        | cons x xs => rw [hq] at h; simp at h; simp [h]
    have hg : guardOf env (env.Query u) k = false := by
      cases k with
      | pagination => exact absurd rfl hk
      | sorting => simp [guardOf, hget env.sortQueryKey (by simp [keysOf])]
      | fieldSelection => simp [guardOf, hget env.fieldsQueryKey (by simp [keysOf])]
      | filtering => simp [guardOf, hget env.filterQueryKey (by simp [keysOf])]
      | searching => simp [guardOf, hget env.searchQueryKey (by simp [keysOf])]
    unfold ClientUnaryInterceptor
    simp only [hraw]
    unfold collectionOps
    simp only [hu]
    have hb := blocks_noKind env (env.Query u) k
      ((⟨req, []⟩ : St T).log (.urlParse raw none)) hg (by
        intro ev hev
        simp only [St.log, List.nil_append, List.mem_singleton] at hev
        subst hev; simp [Event.kind?])
    generalize ((sortBlock env (env.Query u) ((⟨req, []⟩ : St T).log (.urlParse raw none)))
      >>= fun st1 => (fieldsBlock env (env.Query u) st1) >>= fun st2 =>
        (filterBlock env (env.Query u) st2) >>= fun st3 =>
        (searchBlock env (env.Query u) st3) >>= fun st4 =>
        paginationBlock env (env.Query u) st4) = x at hb
    cases x with
    | error p => exact hb
    | ok st => exact forall_mem_snoc hb (by simp [Event.kind?])
  · rintro ⟨ev, hev, hinv⟩
    cases interceptor_ending env parentCtx method req reply cc opts raw hraw with
    | badURL err hu1 hout => rw [hu] at hu1; cases hu1
    | failed u1 hu1 e st hf hout =>
      obtain ⟨tr0, evf, kf, hfa⟩ := hf
      rw [hout] at hev
      simp only [hfa.trace_eq, List.mem_append, List.mem_singleton] at hev
      rcases hev with h1 | h1
      · rw [(hfa.clean ev h1).2] at hinv; cases hinv
      · subst h1; rw [failed_not_invoke hfa.failed] at hinv; cases hinv
    | forwarded u1 hu1 st hi hout =>
      rw [hu] at hu1; cases hu1
      rw [hout]
      have hd : AttachedParsed env (env.Query u)
          (st.trace ++ [Event.invoke ⟨parentCtx, method, st.req, reply, cc, opts⟩])
          .pagination := (hi.done .pagination (by decide) rfl).mono
      obtain ⟨op, hop, hp, hs⟩ := hd
      simp only [parsedOp] at hop
      cases hpp : env.ParsePagination ((env.Query u).Get env.limitQueryKey)
          ((env.Query u).Get env.offsetQueryKey)
          ((env.Query u).Get env.pageTokenQueryKey) with
      | error e1 => rw [hpp] at hop; simp [Except.map, okPart] at hop
      | ok p =>
        rw [hpp] at hop
        simp only [Except.map, okPart, Option.some.injEq] at hop
        subst hop
        exact ⟨p, rfl, hp, hs⟩

/-- Witness of C3 (amended): `_order_by` present with an empty value, `_fields=name`;
the sort parser is not run, the call is forwarded, and the pagination parser has been
run on three empty strings. -/
theorem C3_witness :
    NoKind .sorting (demoRun (some "/v1/humans?_order_by=&_fields=name")).trace ∧
      ∃ p, demoEnv.ParsePagination "" "" "" = .ok p ∧
        Event.parse .pagination ["", "", ""] none ∈
          (demoRun (some "/v1/humans?_order_by=&_fields=name")).trace ∧
        Event.set (.pagination p) none ∈
          (demoRun (some "/v1/humans?_order_by=&_fields=name")).trace :=
  (fun h => ⟨h.1 .sorting (by decide) (by
      intro key hkey
      simp only [keysOf, List.mem_singleton] at hkey
      subst hkey
      exact Or.inr rfl),
    h.2 ⟨.invoke ⟨some "/v1/humans?_order_by=&_fields=name", "/svc/List",
        ["fields:name", "pagination:,,"], (), (), []⟩, by
      have ht : (ClientUnaryInterceptor demoEnv (some "/v1/humans?_order_by=&_fields=name")
          "/svc/List" [] () () []).trace =
        [.urlParse "/v1/humans?_order_by=&_fields=name" none,
          .parse .fieldSelection ["name"] none, .set (.fieldSelection "name") none,
          .parse .pagination ["", "", ""] none, .set (.pagination ("", "", "")) none,
          .invoke ⟨some "/v1/humans?_order_by=&_fields=name", "/svc/List",
            ["fields:name", "pagination:,,"], (), (), []⟩] := rfl
      rw [ht]; simp, rfl⟩⟩)
    (C3_absent_operator_is_skipped demoEnv (some "/v1/humans?_order_by=&_fields=name")
      "/svc/List" [] () () [] "/v1/humans?_order_by=&_fields=name"
      (demoPairs "/v1/humans?_order_by=&_fields=name") rfl rfl)

/-- Counterexample to C8: `_order_by=name` is attached to the request before
`_filter=(` is rejected; the interceptor returns the error and the request, empty on
entry, carries the sorting. -/
theorem C8_counterexample :
    (demoRun (some "/v1/humans?_order_by=name&_filter=(")).err =
        some (DemoErr.status .InvalidArgument "unbalanced group") ∧
      (demoRun (some "/v1/humans?_order_by=name&_filter=(")).req = ["sorting:name"] ∧
      (demoRun (some "/v1/humans?_order_by=name&_filter=(")).req ≠ [] :=
  ⟨rfl, rfl, by decide⟩

/-- C8 (amended): an error can leave the request mutated. If a call made by the
interceptor fails (a parse failure or an attachment failure), the interceptor returns
an error without calling the invoker, and the request is the entry request with every
`SetCollectionOps` call the interceptor made (a failing one included) applied to it in
call order; if the interceptor made no `SetCollectionOps` call, the request is
unchanged from entry. -/
theorem C8_error_keeps_earlier_attachments {T : Sig} (env : Env T) (parentCtx : T.Ctx)
    (method : String) (req : T.Req) (reply : T.Reply) (cc : T.Conn)
    (opts : List T.CallOption)
    (h : ∃ ev ∈ (ClientUnaryInterceptor env parentCtx method req reply cc opts).trace,
      ev.failed = true) :
    (ClientUnaryInterceptor env parentCtx method req reply cc opts).err ≠ none ∧
      (∀ ev ∈ (ClientUnaryInterceptor env parentCtx method req reply cc opts).trace,
        ev.isInvoke = false) ∧
      (ClientUnaryInterceptor env parentCtx method req reply cc opts).req =
        replay env req (ClientUnaryInterceptor env parentCtx method req reply cc opts).trace ∧
      ((∀ ev ∈ (ClientUnaryInterceptor env parentCtx method req reply cc opts).trace,
          ev.isSet = false) →
        (ClientUnaryInterceptor env parentCtx method req reply cc opts).req = req) := by
  have key : (ClientUnaryInterceptor env parentCtx method req reply cc opts).err ≠ none ∧
      (∀ ev ∈ (ClientUnaryInterceptor env parentCtx method req reply cc opts).trace,
        ev.isInvoke = false) ∧
      (ClientUnaryInterceptor env parentCtx method req reply cc opts).req =
        replay env req
          (ClientUnaryInterceptor env parentCtx method req reply cc opts).trace := by
    obtain ⟨ev, hev, hfail⟩ := h
    cases hraw : env.Header parentCtx env.query_url with
    | none =>
      unfold ClientUnaryInterceptor at hev
      simp only [hraw, List.nil_append, List.mem_singleton] at hev
      subst hev; cases hfail
    | some raw =>
      cases interceptor_ending env parentCtx method req reply cc opts raw hraw with
      | badURL err hu hout =>
        rw [hout]
        exact ⟨by simp, fun ev1 h1 => by
          simp only [List.mem_singleton] at h1; subst h1; rfl, rfl⟩
      | failed u hu e st hf hout =>
        obtain ⟨tr0, evf, kf, hfa⟩ := hf
        rw [hout]
        refine ⟨by simp, ?_, hfa.req_eq⟩
        simp only [hfa.trace_eq]
        exact forall_mem_snoc (fun ev1 h1 => (hfa.clean ev1 h1).2)
          (failed_not_invoke hfa.failed)
      | forwarded u hu st hi hout =>
        rw [hout] at hev
        simp only [List.mem_append, List.mem_singleton] at hev
        rcases hev with h1 | h1
        · rw [(hi.clean ev h1).1] at hfail; cases hfail
        · subst h1; cases hfail
  refine ⟨key.1, key.2.1, key.2.2, fun hns => ?_⟩
  rw [key.2.2]
  exact replay_of_no_set env _ req hns

/-- Witness of C8 (amended): the run in which `_filter=(` fails after the sorting was
attached. -/
theorem C8_witness :
    (demoRun (some "/v1/humans?_order_by=name&_filter=(")).err ≠ none ∧
      (∀ ev ∈ (demoRun (some "/v1/humans?_order_by=name&_filter=(")).trace,
        ev.isInvoke = false) ∧
      (demoRun (some "/v1/humans?_order_by=name&_filter=(")).req =
        replay demoEnv [] (demoRun (some "/v1/humans?_order_by=name&_filter=(")).trace ∧
      ((∀ ev ∈ (demoRun (some "/v1/humans?_order_by=name&_filter=(")).trace,
          ev.isSet = false) →
        (demoRun (some "/v1/humans?_order_by=name&_filter=(")).req = []) :=
  C8_error_keeps_earlier_attachments demoEnv (some "/v1/humans?_order_by=name&_filter=(")
    "/svc/List" [] () () []
    ⟨.parse .filtering ["("] (some (.plain "unbalanced group")), by
      have ht : (ClientUnaryInterceptor demoEnv (some "/v1/humans?_order_by=name&_filter=(")
          "/svc/List" [] () () []).trace =
        [.urlParse "/v1/humans?_order_by=name&_filter=(" none,
          .parse .sorting ["name"] none, .set (.sorting "name") none,
          .parse .filtering ["("] (some (.plain "unbalanced group"))] := rfl
      rw [ht]; simp, rfl⟩

/-- C10: when the context carries no query-URL header, the interceptor parses nothing
and attaches nothing: its only call is one call of the invoker with the context,
method, request, reply, connection and call options it was given, the request is as
on entry, and it returns what the invoker returns. -/
theorem C10_no_header_forwards_unchanged {T : Sig} (env : Env T) (parentCtx : T.Ctx)
    (method : String) (req : T.Req) (reply : T.Reply) (cc : T.Conn)
    (opts : List T.CallOption) (h : env.Header parentCtx env.query_url = none) :
    ClientUnaryInterceptor env parentCtx method req reply cc opts =
      ⟨env.invoker parentCtx method req reply cc opts, req,
        [Event.invoke ⟨parentCtx, method, req, reply, cc, opts⟩]⟩ := by
  unfold ClientUnaryInterceptor
  simp only [h, List.nil_append]

/-- Witness of C10: the concrete interceptor on a context without the header. -/
theorem C10_witness :
    demoRun none = ⟨none, [], [Event.invoke ⟨none, "/svc/List", [], (), (), []⟩]⟩ :=
  C10_no_header_forwards_unchanged demoEnv none "/svc/List" [] () () [] rfl


/-! ## Properties of `registerEndpoints` -/

/-- On a prefix that ends in `/` the slice drops exactly that `/`. -/
theorem sliceTo_trailing_slash (s : GoString) :
    sliceTo (s ++ goString "/") (((s ++ goString "/").length : Int) - 1) = .ok s := by
  have hslash : goString "/" = [47] := rfl
  unfold sliceTo
  rw [hslash]
  have h1 : (((s ++ [47]).length : Nat) : Int) - 1 = (s.length : Int) := by
    simp
  rw [h1]
  simp

/-- A single registration under a prefix `s/` installs the mux with `StripPrefix(s)`. -/
theorem NewGateway_trailing_slash (s : GoString) :
    NewGateway [WithEndpointRegistration (s ++ goString "/") []] =
      .ok [⟨s ++ goString "/", s,
        ["WithErrorHandler(ProtoMessageErrorHandler)", "WithMetadata(MetadataAnnotator)"]⟩] := by
  have h := sliceTo_trailing_slash s
  simp only [NewGateway, WithEndpointRegistration, appendEndpoints, registerEndpoints,
    registerLoop, runRegisters, List.foldl_cons, List.foldl_nil, h, List.nil_append,
    List.append_nil]

/-- The slice cuts between bytes: on the three-byte prefix `/é` it drops the second
byte of `é` and keeps the first. -/
theorem sliceTo_inside_character :
    goString "/é" = [47, 195, 169] ∧
      sliceTo (goString "/é") (((goString "/é").length : Int) - 1) = .ok [47, 195] :=
  ⟨rfl, rfl⟩

/-- C9 (evaluation of the code): registering the empty prefix makes
`registerEndpoints` panic on `prefix[:len(prefix)-1]`; registering `/api`, which has no
trailing `/`, installs the mux with `StripPrefix("/ap")`, and `"/ap" + "/"` is not the
registered prefix; registering `/api/` strips `/api`. -/
theorem C9_registerEndpoints_slices_last_byte :
    NewGateway [WithEndpointRegistration (goString "") []] =
        .panic "slice bounds out of range" ∧
      NewGateway [WithEndpointRegistration (goString "/api") []] =
        .ok [⟨goString "/api", goString "/ap",
          ["WithErrorHandler(ProtoMessageErrorHandler)", "WithMetadata(MetadataAnnotator)"]⟩] ∧
      goString "/ap" ++ goString "/" ≠ goString "/api" ∧
      NewGateway [WithEndpointRegistration (goString "/api/") []] =
        .ok [⟨goString "/api/", goString "/api",
          ["WithErrorHandler(ProtoMessageErrorHandler)", "WithMetadata(MetadataAnnotator)"]⟩] :=
  ⟨rfl, rfl, by decide, rfl⟩

end Gateway

namespace Gorm

/-! ## Properties of the field-path resolver -/

theorem isModel_of_modelOf {t : GoType} {d : String × List (Field GoType)}
    (h : modelOf t = some d) : isModel t = true := by
  unfold modelOf at h
  split at h <;> first | rfl | cases h

theorem walk_last (qualifier assoc : String) (hops : Nat) (fields : List (Field GoType))
    (seg : String) (f : Field GoType) (hl : lookup fields seg = some f)
    (hs : isModel f.type = false) :
    walk qualifier assoc hops fields [seg] = (qualifier ++ "." ++ columnName f, assoc, none) := by
  simp [walk, hl, hs]

/-- C4: for a two-segment path `[a, f]` where `a` names a model-typed field `fa` of the
root model and `f` names a scalar field `ff` of the associated model, `HandleFieldPath`
succeeds with the column `<column form of fa's name>.<column of ff>` (the associated
model's table name `table1` plays no part) and the association `fa.name`; for
`&Human{}` and `["child", "name"]` the result is `("child.name", "Child", nil)`. -/
theorem C4_association_path (root : GoType) (table table1 : String)
    (fields fields1 : List (Field GoType)) (a f : String) (fa ff : Field GoType)
    (hroot : modelOf root = some (table, fields)) (ha : lookup fields a = some fa)
    (hm : isModel fa.type = true) (hmo : modelOf fa.type = some (table1, fields1))
    (hf : lookup fields1 f = some ff) (hs : isModel ff.type = false) :
    HandleFieldPath [a, f] root = (normalize fa.name ++ "." ++ columnName ff, fa.name, none) ∧
      HandleFieldPath ["child", "name"] (.ptr Human) = ("child.name", "Child", none) := by
  refine ⟨?_, rfl⟩
  unfold HandleFieldPath
  simp only [hroot]
  rw [walk]
  · simp only [ha, hm, hmo, if_true]
    simp only [ge_iff_le, Nat.le_zero_eq, Nat.succ_ne_zero, if_false]
    exact walk_last _ _ _ _ _ _ hf hs
  · intro h; cases h

/-- Witness of C4: `Child` is stored in table `children`, yet the column is qualified
by `child`. -/
theorem C4_witness :
    HandleFieldPath ["child", "name"] (.ptr Human) =
        (normalize "Child" ++ "." ++ columnName ⟨"Name", none, .basic "string"⟩, "Child", none) ∧
      HandleFieldPath ["child", "name"] (.ptr Human) = ("child.name", "Child", none) :=
  C4_association_path (.ptr Human) "db_humans" "children"
    [⟨"Name", none, .basic "string"⟩, ⟨"Age", some "years", .basic "uint32"⟩,
      ⟨"Child", none, .ptr Child⟩]
    [⟨"Name", none, .basic "string"⟩] "child" "name" ⟨"Child", none, .ptr Child⟩
    ⟨"Name", none, .basic "string"⟩ rfl rfl rfl rfl rfl rfl

/-- C5: for a one-segment path naming a scalar field `f` of the root model,
`HandleFieldPath` succeeds with an empty association and the column
`<table name>.<column name>`, the column name being the field's explicit override when
one is declared and the normalized form of its name otherwise; for `&Human{}`,
`["name"]` gives `db_humans.name` and `["age"]` gives `db_humans.years`. -/
theorem C5_root_scalar_path (root : GoType) (table : String) (fields : List (Field GoType))
    (seg : String) (f : Field GoType)
    (hroot : modelOf root = some (table, fields)) (hl : lookup fields seg = some f)
    (hs : isModel f.type = false) :
    HandleFieldPath [seg] root =
        (table ++ "." ++ (match f.column with
          | some c => c
          | none => normalize f.name), "", none) ∧
      HandleFieldPath ["name"] (.ptr Human) = ("db_humans.name", "", none) ∧
      HandleFieldPath ["age"] (.ptr Human) = ("db_humans.years", "", none) := by
  refine ⟨?_, rfl, rfl⟩
  unfold HandleFieldPath
  simp only [hroot]
  exact walk_last _ _ _ _ _ _ hl hs

/-- Witness of C5: the field `Age` of `Human`, tagged `column:years`. -/
theorem C5_witness :
    HandleFieldPath ["age"] (.ptr Human) = ("db_humans" ++ "." ++ "years", "", none) ∧
      HandleFieldPath ["name"] (.ptr Human) = ("db_humans.name", "", none) ∧
      HandleFieldPath ["age"] (.ptr Human) = ("db_humans.years", "", none) :=
  C5_root_scalar_path (.ptr Human) "db_humans"
    [⟨"Name", none, .basic "string"⟩, ⟨"Age", some "years", .basic "uint32"⟩,
      ⟨"Child", none, .ptr Child⟩]
    "age" ⟨"Age", some "years", .basic "uint32"⟩ rfl rfl rfl

/-- C6: for every root model, `HandleFieldPath` on a path of zero segments returns a
non-nil error (the empty-path error) with an empty column and an empty association. -/
theorem C6_empty_path_fails (obj : GoType) :
    HandleFieldPath [] obj = ("", "", some .emptyPath) ∧
      (HandleFieldPath [] obj).2.2 ≠ none := by
  have h : HandleFieldPath [] obj = ("", "", some .emptyPath) := by
    unfold HandleFieldPath
    cases modelOf obj <;> simp [walk]
  exact ⟨h, by rw [h]; simp⟩

/-- C7: `isModel` is false for `time.Time` and for `*time.Time` and true for any other
struct and pointer to struct; so a field of a model whose type is the timestamp or its
pointer form resolves as a scalar column of its model, and a path that continues past
it fails with the invalid-traversal error instead of descending. -/
theorem C7_isModel_timestamp (name table : String) (sfields : List (Field GoType))
    (root : GoType) (rtable : String) (fields : List (Field GoType)) (seg : String)
    (f : Field GoType)
    (hroot : modelOf root = some (rtable, fields)) (hl : lookup fields seg = some f)
    (ht : f.type = .time ∨ f.type = .ptr .time) :
    isModel .time = false ∧ isModel (.ptr .time) = false ∧
      isModel (.struct name table sfields) = true ∧
      isModel (.ptr (.struct name table sfields)) = true ∧
      HandleFieldPath [seg] root = (rtable ++ "." ++ columnName f, "", none) ∧
      ∀ seg1 rest, HandleFieldPath (seg :: seg1 :: rest) root =
        ("", "", some (.invalidTraversal seg)) := by
  have hs : isModel f.type = false := by
    rcases ht with h | h <;> rw [h] <;> rfl
  refine ⟨rfl, rfl, rfl, rfl, ?_, ?_⟩
  · unfold HandleFieldPath
    simp only [hroot]
    exact walk_last _ _ _ _ _ _ hl hs
  · intro seg1 rest
    unfold HandleFieldPath
    simp only [hroot]
    rw [walk]
    · simp [hl, hs]
    · intro h; cases h

/-- Witness of C7: the pointer-to-timestamp field `DeletedAt` of `Booking`. -/
theorem C7_witness :
    isModel .time = false ∧ isModel (.ptr .time) = false ∧
      isModel (.struct "Child" "children" [⟨"Name", none, .basic "string"⟩]) = true ∧
      isModel (.ptr (.struct "Child" "children" [⟨"Name", none, .basic "string"⟩])) = true ∧
      HandleFieldPath ["deleted_at"] (.ptr Booking) =
        ("bookings" ++ "." ++ columnName ⟨"DeletedAt", none, .ptr .time⟩, "", none) ∧
      ∀ seg1 rest, HandleFieldPath ("deleted_at" :: seg1 :: rest) (.ptr Booking) =
        ("", "", some (.invalidTraversal "deleted_at")) :=
  C7_isModel_timestamp "Child" "children" [⟨"Name", none, .basic "string"⟩] (.ptr Booking)
    "bookings" [⟨"CreatedAt", none, .time⟩, ⟨"DeletedAt", none, .ptr .time⟩] "deleted_at"
    ⟨"DeletedAt", none, .ptr .time⟩ rfl rfl (Or.inr rfl)

end Gorm
